import Mathlib

/-!
Shallow embedding of the WaveTransfer data-loading pipeline
(`src/bddm/data_loader.py`) and proofs about its dataset indexing,
per-example transform and batch collation.

Conventions of the embedding:
* audio samples are rationals (`ℚ`); a decoded torch signal of shape
  `[channels, samples]` is a `List (List ℚ)`;
* the filesystem (`glob` results, list-file contents) is passed in as data;
* `random.randint(0, n)` is modelled by a `start` parameter ranging over the
  inclusive interval `[0, n]`;
* Python exceptions become `Except`: `raise ValueError` and failed `assert`
  statements are `Except.error` values of `LoaderError`.
-/

set_option autoImplicit false

namespace WaveTransfer

/-- The configuration surface of `params` consumed by `data_loader.py`:
`sample_rate`, `hop_samples`, `crop_mel_frames`, the pairing-regime flag
`train_mixtures`, and the mel-bin count used by the spectrogram extractor. -/
structure Params where
  sample_rate : Nat
  hop_samples : Nat
  crop_mel_frames : Nat
  train_mixtures : Bool
  n_mels : Nat
deriving Repr, DecidableEq

/-- `indices = [(0, 3), (3, 0)] if params.train_mixtures else
[(0, 3), (3, 0), (1, 4), (4, 1), (2, 5), (5, 2)]`
(`NumpyDataset.__init__`, line 36). -/
def pairIndices (train_mixtures : Bool) : List (Nat × Nat) :=
  if train_mixtures then [(0, 3), (3, 0)]
  else [(0, 3), (3, 0), (1, 4), (4, 1), (2, 5), (5, 2)]

/-- `base_filename = x[:-6]` (line 45): strip the trailing `.N.wav`
instrument-tag suffix (6 characters) from a discovered filename. -/
def groupStem (x : String) : String := x.dropRight 6

/-- `[(f'{base_filename}.{i}.wav', f'{base_filename}.{j}.wav') for i, j in indices]`
(line 48): substitute the two tags of each pair into the group stem. -/
def pairPaths (indices : List (Nat × Nat)) (base : String) : List (String × String) :=
  indices.map (fun ij => (base ++ "." ++ toString ij.1 ++ ".wav",
                          base ++ "." ++ toString ij.2 ++ ".wav"))

/-- The mode-(a) loop of `NumpyDataset.__init__` (lines 43-48): walk the
globbed filenames, keep a `seen` set of group stems, and for each stem not
seen before append one path pair per entry of `indices`. -/
def scanFilenames (indices : List (Nat × Nat)) :
    List String → List String → List (String × String)
  | _, [] => []
  | seen, x :: xs =>
    let base := groupStem x
    if base ∈ seen then scanFilenames indices seen xs
    else pairPaths indices base ++ scanFilenames indices (base :: seen) xs

/-- The deduplicated group stems, first occurrence wins, insertion order
preserved (the `seen` set of lines 43-47, without the emission step). -/
def uniqueStems : List String → List String → List String
  | _, [] => []
  | seen, x :: xs =>
    let base := groupStem x
    if base ∈ seen then uniqueStems seen xs
    else base :: uniqueStems (base :: seen) xs

/-- `os.path.join(path, name)` for a relative `name`. -/
def joinPath (path name : String) : String := path ++ "/" ++ name

/-- Mode-(b) expansion of one list-file line (line 58):
`[(os.path.join(path, x + f'.{i}.wav'), os.path.join(path, x + f'.{j}.wav')) for i, j in indices]`. -/
def linePaths (indices : List (Nat × Nat)) (path line : String) : List (String × String) :=
  indices.map (fun ij => (joinPath path (line ++ "." ++ toString ij.1 ++ ".wav"),
                          joinPath path (line ++ "." ++ toString ij.2 ++ ".wav")))

/-- `NumpyDataset.__init__` (lines 32-58), producing `self.filenames`.
`scanned` is the concatenated recursive `glob` result over `paths`
(line 41-42); `files` is the list of list-file contents, each already split
on newlines (line 53); a `files` argument of Python `None` and of `[]` both
make `not files` true and are both modelled by `files = []`.
Errors model the `assert` on line 50. -/
def datasetFilenames (p : Params) (scanned : List String)
    (paths : List String) (files : List (List String)) :
    Except String (List (String × String)) :=
  let indices := pairIndices p.train_mixtures
  if files.isEmpty then
    Except.ok (scanFilenames indices [] scanned)
  else if files.length ≠ paths.length then
    Except.error "assert len(files) == len(paths)"
  else
    Except.ok ((paths.zip files).flatMap (fun pf =>
      (pf.2.filter (fun x => x.length > 0)).flatMap (linePaths indices pf.1)))

/-- The shape of a 2-D tensor modelled as channel rows:
`(shape[0], shape[1]) = (number of rows, length of a row)`.
Torch tensors are rectangular, so the first row's length is the row length. -/
def shape2 (s : List (List ℚ)) : Nat × Nat := (s.length, (s.headD []).length)

/-- Executable maximum on `ℚ` (kernel-reducible, unlike the lattice `⊔`). -/
def qmax (a b : ℚ) : ℚ := if a ≤ b then b else a

/-- Executable absolute value on `ℚ`. -/
def qabs (a : ℚ) : ℚ := if a < 0 then -a else a

/-- `‖xs‖∞ = max |x|`, the infinity norm used by
`torch.nn.functional.normalize(..., p=float('inf'), dim=-1, ...)`. -/
def infNorm (xs : List ℚ) : ℚ := xs.foldr (fun x m => qmax (qabs x) m) 0

/-- One row of `torch.nn.functional.normalize(signal, p=float('inf'), dim=-1,
eps=1e-12) * 0.95` (lines 76, 78): divide by the infinity norm clamped below
by `eps = 1e-12`, then scale by `0.95`. -/
def normalizeRow (xs : List ℚ) : List ℚ :=
  let d := qmax (infNorm xs) (1 / 10 ^ 12)
  xs.map (fun x => x / d * (95 / 100))

/-- `F.normalize` with `dim=-1` normalizes each channel row independently. -/
def normalizeInf (s : List (List ℚ)) : List (List ℚ) := s.map normalizeRow

/-- The crop_mel resolution `self.crop_mel if self.crop_mel else
self.params.crop_mel_frames` appearing identically at line 81
(`__getitem__`) and line 112 (`Collator.collate`): a Python-falsy override
(absent, or the integer `0`) falls back to the configured
`crop_mel_frames`. -/
def effectiveCropMel (crop_mel : Option Nat) (p : Params) : Nat :=
  match crop_mel with
  | some c => if c = 0 then p.crop_mel_frames else c
  | none => p.crop_mel_frames

/-- The crop step of `__getitem__` (lines 83-88) on the two squeezed,
normalized waveforms: if `signal1` is at least `(crop_mel - 1) * hop` samples
long, slice both signals to `[start, start + (crop_mel - 1) * hop)`, where
`start` stands for the value drawn by
`random.randint(0, signal1.shape[0] - (crop_mel - 1) * hop)`;
otherwise leave both signals unmodified. -/
def cropStep (hop crop_mel start : Nat) (s1 s2 : List ℚ) : List ℚ × List ℚ :=
  let cropLen := (crop_mel - 1) * hop
  if cropLen ≤ s1.length then
    let stop := start + cropLen
    ((s1.drop start).take (stop - start), (s2.drop start).take (stop - start))
  else (s1, s2)

/-- `.squeeze(0)` on a tensor of shape `[1, m, t]` drops the leading
singleton dimension. -/
def squeeze0 (t : List (List (List ℚ))) : List (List ℚ) := t.headD []

/-- `.T` on a rectangular 2-D tensor: the transpose has one row per column of
`m`, and entry `(i, j)` of the result is entry `(j, i)` of `m`. -/
def matT (m : List (List ℚ)) : List (List ℚ) :=
  (List.range (m.headD []).length).map (fun i => m.map (fun row => row.getD i 0))

/-- Errors out of `NumpyDataset.__getitem__`: the `raise ValueError` of
line 72 and the `assert` statements of lines 73-74. -/
inductive LoaderError where
  | invalidSampleRate (sr1 sr2 cfgRate : Nat)
  | assertionFailure (msg : String)
deriving Repr, DecidableEq

/-- The message of the `ValueError` raised at line 72; assertion errors keep
their source text. -/
def LoaderError.message : LoaderError → String
  | .invalidSampleRate sr1 sr2 cfgRate =>
      "Invalid sample rate: sr1 = " ++ toString sr1 ++ " and sr2 = " ++
      toString sr2 ++ " while sample rate in params is " ++ toString cfgRate ++ "."
  | .assertionFailure m => m

/-- A Transformed Example: the dict returned at lines 97-101 of
`__getitem__`.  `spectrogram` is stored time-major (after `.squeeze(0).T`)
and is `none` when extraction failed. -/
structure Record where
  audio : List ℚ
  spectrogram : Option (List (List ℚ))
  audio_cond_inst : List ℚ
deriving Repr, DecidableEq

/-- Lines 76-88 of `__getitem__` combined: normalize and squeeze both
decoded signals, then apply the crop step with the resolved crop length;
the result is the pair (content-source waveform, timbre-target waveform)
entering spectrogram extraction and padding. -/
def croppedPair (p : Params) (crop_mel_arg : Option Nat) (start : Nat)
    (signal1 signal2 : List (List ℚ)) : List ℚ × List ℚ :=
  cropStep p.hop_samples (effectiveCropMel crop_mel_arg p) start
    ((normalizeInf signal1).headD []) ((normalizeInf signal2).headD [])

/-- `NumpyDataset.__getitem__` (lines 63-101).  File decoding is external:
the two decoded signals (shape `[channels, samples]`) and their native
sample rates are inputs.  `gspec` is the external `get_spec` collaborator
from `preprocess` (it receives the possibly-cropped content-source waveform
and the params and either returns a mel tensor of shape
`[1, mel-bins, frames]` or raises); `start` models the `random.randint`
draw of line 84. -/
def getItem (gspec : List ℚ → Params → Except String (List (List (List ℚ))))
    (p : Params) (crop_mel_arg : Option Nat) (start : Nat)
    (signal1 : List (List ℚ)) (sr1 : Nat)
    (signal2 : List (List ℚ)) (sr2 : Nat) : Except LoaderError Record :=
  if p.sample_rate ≠ sr1 ∨ p.sample_rate ≠ sr2 then
    Except.error (.invalidSampleRate sr1 sr2 p.sample_rate)
  else if shape2 signal1 ≠ shape2 signal2 then
    Except.error (.assertionFailure "signal1.shape == signal2.shape")
  else if ¬((shape2 signal1).1 = 1 ∧ (shape2 signal2).1 = 1) then
    Except.error (.assertionFailure "signal1.shape[0] == 1 and signal2.shape[0] == 1")
  else
    let cropped := croppedPair p crop_mel_arg start signal1 signal2
    let spec := gspec cropped.1 p
    let padded2 := cropped.2 ++ List.replicate p.hop_samples 0
    let padded1 := cropped.1 ++ List.replicate p.hop_samples 0
    Except.ok
      { audio := padded2
        spectrogram := match spec with
          | .ok t => some (matT (squeeze0 t))
          | .error _ => none
        audio_cond_inst := padded1 }

/-- Modelled from the spec: the external mel-spectrogram extractor
`get_spec` lives in `preprocess.py`, which is not among the sources here.
Per the spec it consumes a mono waveform plus the configuration and returns
a mel tensor of shape `[1, mel-bins, time-frames]`, or raises on degenerate
input; with the standard centered framing the spec's arithmetic
(`crop length + hop_samples` padding compensating one hop of framing, and a
`(crop_mel - 1) * hop`-sample window yielding `crop_mel` frames) corresponds
to `time-frames = samples / hop + 1`.  Degenerate (empty) input raises. -/
def get_spec (s : List ℚ) (p : Params) : Except String (List (List (List ℚ))) :=
  if s.length = 0 then Except.error "degenerate input"
  else Except.ok [List.replicate p.n_mels (List.replicate (s.length / p.hop_samples + 1) 0)]

/-- The mutable minibatch record during `Collator.collate`: each of the
three dict keys is present (`some`) or deleted (`none`, after the `del`
statements of lines 116-118). -/
structure PRec where
  audio : Option (List ℚ)
  spectrogram : Option (List (List ℚ))
  audio_cond_inst : Option (List ℚ)
deriving Repr, DecidableEq

/-- A record dict with all three keys deleted (Python-falsy dict). -/
def PRec.isEmptyRec (r : PRec) : Bool :=
  r.audio.isNone && r.spectrogram.isNone && r.audio_cond_inst.isNone

/-- The filter predicate of line 115, negated: a record is kept when its
spectrogram is present and its time-length is not `< crop_mel`. -/
def keepRecord (crop_mel : Nat) (r : Record) : Bool :=
  match r.spectrogram with
  | none => false
  | some s => !(s.length < crop_mel)

/-- The body of the `for record in minibatch` loop (lines 113-123): delete
all three keys when the record is filtered out, otherwise transpose the
spectrogram back to `[mel-bins, time]` and keep the three keys. -/
def processRecord (crop_mel : Nat) (r : Record) : PRec :=
  match r.spectrogram with
  | none => ⟨none, none, none⟩
  | some s =>
    if s.length < crop_mel then ⟨none, none, none⟩
    else ⟨some r.audio, some (matT s), some r.audio_cond_inst⟩

/-- A collated Batch: each field is the `torch.stack` of the surviving
records' tensors, with the list length as the new leading batch
dimension. -/
structure Batch where
  audio : List (List ℚ)
  spectrogram : List (List (List ℚ))
  audio_cond_inst : List (List ℚ)
deriving Repr, DecidableEq

/-- `Collator.collate` (lines 110-135): resolve the crop length with the
same falsy-override rule as `__getitem__`, run the filter loop, return the
`None` sentinel when every record dict ended up empty, and otherwise stack
each field over the records still holding that key. -/
def collate (p : Params) (crop_mel_arg : Option Nat) (minibatch : List Record) :
    Option Batch :=
  let crop_mel := effectiveCropMel crop_mel_arg p
  let processed := minibatch.map (processRecord crop_mel)
  if processed.all (fun r => r.isEmptyRec) then none
  else some
    { audio := processed.filterMap (fun r => r.audio)
      spectrogram := processed.filterMap (fun r => r.spectrogram)
      audio_cond_inst := processed.filterMap (fun r => r.audio_cond_inst) }

/-! ### Lemmas about the Pair Indexer -/

/-- The interleaved scan-dedup-emit loop equals emission over the
deduplicated stem list. -/
theorem scanFilenames_eq_flatMap (idx : List (Nat × Nat)) :
    ∀ (fns seen : List String),
      scanFilenames idx seen fns = (uniqueStems seen fns).flatMap (pairPaths idx) := by
  intro fns
  induction fns with
  | nil => intro seen; rfl
  | cons x xs ih =>
    intro seen
    simp only [scanFilenames, uniqueStems]
    by_cases h : groupStem x ∈ seen
    · simp only [if_pos h, ih]
    · simp only [if_neg h, ih, List.flatMap_cons]

/-- Emitting a constant number of pairs per stem multiplies the count. -/
theorem length_flatMap_pairPaths (idx : List (Nat × Nat)) (stems : List String) :
    (stems.flatMap (pairPaths idx)).length = stems.length * idx.length := by
  induction stems with
  | nil => simp
  | cons b bs ih =>
    simp only [List.flatMap_cons, List.length_append, ih, pairPaths, List.length_map,
      List.length_cons]
    ring

/-- Membership in the deduplicated stem list: exactly the stems of the
scanned filenames that are not already in `seen`. -/
theorem mem_uniqueStems (b : String) :
    ∀ (fns seen : List String),
      b ∈ uniqueStems seen fns ↔ b ∉ seen ∧ b ∈ fns.map groupStem := by
  intro fns
  induction fns with
  | nil => intro seen; simp [uniqueStems]
  | cons x xs ih =>
    intro seen
    simp only [uniqueStems, List.map_cons, List.mem_cons]
    by_cases h : groupStem x ∈ seen
    · rw [if_pos h, ih]
      constructor
      · intro ⟨hb, hm⟩
        exact ⟨hb, Or.inr hm⟩
      · intro ⟨hb, hm⟩
        rcases hm with hm | hm
        · exact absurd (hm ▸ h) hb
        · exact ⟨hb, hm⟩
    · rw [if_neg h]
      simp only [List.mem_cons, ih, List.mem_cons, not_or]
      constructor
      · intro hb
        rcases hb with hb | ⟨⟨hb1, hb2⟩, hm⟩
        · exact ⟨hb ▸ h, Or.inl hb⟩
        · exact ⟨hb2, Or.inr hm⟩
      · intro ⟨hb, hm⟩
        rcases hm with hm | hm
        · exact Or.inl hm
        · by_cases hbx : b = groupStem x
          · exact Or.inl hbx
          · exact Or.inr ⟨⟨hbx, hb⟩, hm⟩

/-- The deduplicated stem list holds no duplicates. -/
theorem uniqueStems_nodup :
    ∀ (fns seen : List String), (uniqueStems seen fns).Nodup := by
  intro fns
  induction fns with
  | nil => intro seen; exact List.nodup_nil
  | cons x xs ih =>
    intro seen
    simp only [uniqueStems]
    by_cases h : groupStem x ∈ seen
    · rw [if_pos h]; exact ih seen
    · rw [if_neg h]
      refine List.Nodup.cons ?_ (ih _)
      intro hmem
      exact ((mem_uniqueStems _ _ _).mp hmem).1 (List.mem_cons_self _ _)

/-- C1: mode-(a) index construction: the dataset index is exactly the
flat expansion of the deduplicated group stems (first occurrence wins,
insertion order preserved) by the active Instrument-Pair Index, each
example's two paths formed by substituting the pair's two tags into the
stem; hence it holds `(#unique groups) * (#pairs)` Training Examples, with
2 pairs `[(0,3),(3,0)]` when `train_mixtures` is set and 6 pairs
`[(0,3),(3,0),(1,4),(4,1),(2,5),(5,2)]` otherwise. -/
theorem scan_index_characterization (p : Params) (scanned paths : List String) :
    datasetFilenames p scanned paths [] =
      Except.ok ((uniqueStems [] scanned).flatMap (pairPaths (pairIndices p.train_mixtures)))
    ∧ (scanFilenames (pairIndices p.train_mixtures) [] scanned).length =
        (uniqueStems [] scanned).length * (pairIndices p.train_mixtures).length
    ∧ (pairIndices p.train_mixtures).length = (if p.train_mixtures then 2 else 6)
    ∧ pairIndices true = [(0, 3), (3, 0)]
    ∧ pairIndices false = [(0, 3), (3, 0), (1, 4), (4, 1), (2, 5), (5, 2)]
    ∧ (uniqueStems [] scanned).Nodup
    ∧ (∀ b, b ∈ uniqueStems [] scanned ↔ b ∈ scanned.map groupStem) := by
  refine ⟨?_, ?_, ?_, rfl, rfl, uniqueStems_nodup scanned [], ?_⟩
  · simp only [datasetFilenames, List.isEmpty_nil, if_pos]
    rw [scanFilenames_eq_flatMap]
  · rw [scanFilenames_eq_flatMap, length_flatMap_pairPaths]
  · cases p.train_mixtures <;> rfl
  · intro b
    rw [mem_uniqueStems]
    simp

/-! ### The Example Transform -/

/-- C2: the transform raises the invalid-sample-rate error exactly when one
of the two decoded sample rates differs from the configured `sample_rate`,
and that error's message names both observed rates (and the configured
one). -/
theorem sample_rate_check_iff
    (gspec : List ℚ → Params → Except String (List (List (List ℚ))))
    (p : Params) (cma : Option Nat) (start : Nat)
    (signal1 : List (List ℚ)) (sr1 : Nat) (signal2 : List (List ℚ)) (sr2 : Nat) :
    (getItem gspec p cma start signal1 sr1 signal2 sr2 =
        Except.error (.invalidSampleRate sr1 sr2 p.sample_rate)
      ↔ (sr1 ≠ p.sample_rate ∨ sr2 ≠ p.sample_rate))
    ∧ (LoaderError.invalidSampleRate sr1 sr2 p.sample_rate).message =
        "Invalid sample rate: sr1 = " ++ toString sr1 ++ " and sr2 = " ++
        toString sr2 ++ " while sample rate in params is " ++
        toString p.sample_rate ++ "." := by
  refine ⟨⟨?_, ?_⟩, rfl⟩
  · intro h
    by_contra hc
    push_neg at hc
    have hcond : ¬(p.sample_rate ≠ sr1 ∨ p.sample_rate ≠ sr2) := by
      push_neg
      exact ⟨hc.1.symm, hc.2.symm⟩
    unfold getItem at h
    rw [if_neg hcond] at h
    split at h
    · simp at h
    · split at h <;> simp at h
  · intro h
    have hcond : p.sample_rate ≠ sr1 ∨ p.sample_rate ≠ sr2 := by
      rcases h with h | h
      · exact Or.inl (Ne.symm h)
      · exact Or.inr (Ne.symm h)
    unfold getItem
    rw [if_pos hcond]

/-- C10: a Python-falsy crop-length override (`None`, or the explicit
integer `0`) is silently replaced by the configured `crop_mel_frames`, in
the Example Transform and in the Batch Collator alike; a nonzero override
is honored. -/
theorem crop_override_falsy_ignored
    (gspec : List ℚ → Params → Except String (List (List (List ℚ))))
    (p : Params) (start : Nat)
    (signal1 : List (List ℚ)) (sr1 : Nat) (signal2 : List (List ℚ)) (sr2 : Nat)
    (mb : List Record) :
    effectiveCropMel (some 0) p = p.crop_mel_frames
    ∧ effectiveCropMel none p = p.crop_mel_frames
    ∧ (∀ c : Nat, c ≠ 0 → effectiveCropMel (some c) p = c)
    ∧ getItem gspec p (some 0) start signal1 sr1 signal2 sr2 =
        getItem gspec p none start signal1 sr1 signal2 sr2
    ∧ collate p (some 0) mb = collate p none mb := by
  refine ⟨rfl, rfl, ?_, rfl, rfl⟩
  intro c hc
  simp [effectiveCropMel, hc]

/-- A concrete configuration used by the witnesses below. -/
def pTest : Params :=
  { sample_rate := 16000, hop_samples := 2, crop_mel_frames := 2,
    train_mixtures := true, n_mels := 3 }

/-- Witness for `crop_override_falsy_ignored` at a concrete configuration,
override `5` discharging the nonzero hypothesis. -/
theorem crop_override_falsy_ignored_witness :
    effectiveCropMel (some 0) pTest = pTest.crop_mel_frames
    ∧ effectiveCropMel (some 5) pTest = 5 := by
  obtain ⟨h1, _, h3, _, _⟩ :=
    crop_override_falsy_ignored get_spec pTest 0 [[1]] 16000 [[1]] 16000 []
  exact ⟨h1, h3 5 (by decide)⟩

/-- C3: the crop step slices both waveforms to the identical
`[start, start + (crop_mel - 1) * hop)` window whenever the waveform is at
least that long and the start offset lies in the inclusive randint range
`[0, length - crop_len]` (so the pair stays sample-index aligned), and
leaves both waveforms unmodified when the waveform is shorter. -/
theorem crop_window_aligned (hop crop_mel start : Nat) (s1 s2 : List ℚ)
    (hlen : s2.length = s1.length) :
    ((crop_mel - 1) * hop ≤ s1.length →
      start ≤ s1.length - (crop_mel - 1) * hop →
      (cropStep hop crop_mel start s1 s2).1.length = (crop_mel - 1) * hop
      ∧ (cropStep hop crop_mel start s1 s2).2.length = (crop_mel - 1) * hop
      ∧ (∀ k, k < (crop_mel - 1) * hop →
          (cropStep hop crop_mel start s1 s2).1[k]? = s1[start + k]?
          ∧ (cropStep hop crop_mel start s1 s2).2[k]? = s2[start + k]?))
    ∧ (s1.length < (crop_mel - 1) * hop →
        cropStep hop crop_mel start s1 s2 = (s1, s2)) := by
  constructor
  · intro hge hstart
    have hs : start + (crop_mel - 1) * hop ≤ s1.length := by omega
    simp only [cropStep, if_pos hge]
    have hstop : start + (crop_mel - 1) * hop - start = (crop_mel - 1) * hop := by omega
    rw [hstop]
    refine ⟨?_, ?_, ?_⟩
    · simp only [List.length_take, List.length_drop]
      omega
    · simp only [List.length_take, List.length_drop, hlen]
      omega
    · intro k hk
      constructor
      · rw [List.getElem?_take_of_lt hk, List.getElem?_drop]
      · rw [List.getElem?_take_of_lt hk, List.getElem?_drop]
  · intro hlt
    simp only [cropStep, if_neg (not_le.mpr hlt)]

/-- Witness for `crop_window_aligned`: hop 2, `crop_mel` 2 (crop length 2),
start offset 1 inside `[0, 2]`, on a pair of length-4 waveforms. -/
theorem crop_window_aligned_witness :
    (cropStep 2 2 1 [1, 2, 3, 4] [5, 6, 7, 8]).1.length = (2 - 1) * 2
    ∧ (cropStep 2 2 1 [1, 2, 3, 4] [5, 6, 7, 8]).2.length = (2 - 1) * 2 := by
  have h := (crop_window_aligned 2 2 1 [1, 2, 3, 4] [5, 6, 7, 8] (by decide)).1
    (by decide) (by decide)
  exact ⟨h.1, h.2.1⟩

/-! ### Lemmas about the Batch Collator -/

/-- A processed record dict is empty exactly when the record was filtered
out. -/
theorem processRecord_isEmptyRec (crop : Nat) (r : Record) :
    (processRecord crop r).isEmptyRec = !(keepRecord crop r) := by
  unfold processRecord keepRecord PRec.isEmptyRec
  cases r.spectrogram with
  | none => rfl
  | some s => by_cases h : s.length < crop <;> simp [h]

/-- A filtered-out record has all three keys deleted. -/
theorem processRecord_dropped (crop : Nat) (r : Record)
    (h : keepRecord crop r = false) : processRecord crop r = ⟨none, none, none⟩ := by
  unfold processRecord
  unfold keepRecord at h
  cases hs : r.spectrogram with
  | none => rfl
  | some s =>
    rw [hs] at h
    simp only [Bool.not_eq_false'] at h
    simp [decide_eq_true_eq.mp (by simpa using h)]

/-- A surviving record keeps all three keys, with the spectrogram transposed
back to `[mel-bins, time]`; its spectrogram had time-length at least the
crop length. -/
theorem processRecord_kept (crop : Nat) (r : Record)
    (h : keepRecord crop r = true) :
    ∃ s, r.spectrogram = some s ∧ crop ≤ s.length ∧
      processRecord crop r = ⟨some r.audio, some (matT s), some r.audio_cond_inst⟩ := by
  unfold keepRecord at h
  cases hs : r.spectrogram with
  | none => rw [hs] at h; exact absurd h (by simp)
  | some s =>
    rw [hs] at h
    simp only [Bool.not_eq_true'] at h
    have hlen : ¬ s.length < crop := by simpa using h
    refine ⟨s, rfl, by omega, ?_⟩
    simp [processRecord, hs, hlen]

/-- Each stacked field lists exactly the surviving records' tensors, in
order. -/
theorem filterMap_processRecord (crop : Nat) (mb : List Record) :
    ((mb.map (processRecord crop)).filterMap (fun r => r.audio)
        = (mb.filter (keepRecord crop)).map (fun r => r.audio))
    ∧ ((mb.map (processRecord crop)).filterMap (fun r => r.spectrogram)
        = (mb.filter (keepRecord crop)).map (fun r => matT (r.spectrogram.getD [])))
    ∧ ((mb.map (processRecord crop)).filterMap (fun r => r.audio_cond_inst)
        = (mb.filter (keepRecord crop)).map (fun r => r.audio_cond_inst)) := by
  induction mb with
  | nil => exact ⟨rfl, rfl, rfl⟩
  | cons r rs ih =>
    cases hk : keepRecord crop r with
    | false =>
      have hd := processRecord_dropped crop r hk
      simp only [List.map_cons, List.filterMap_cons, hd, List.filter_cons, hk]
      exact ih
    | true =>
      obtain ⟨s, hs, _, hp⟩ := processRecord_kept crop r hk
      simp only [List.map_cons, List.filterMap_cons, hp, List.filter_cons, hk, if_pos,
        hs, Option.getD_some]
      exact ⟨by rw [ih.1], by rw [ih.2.1], by rw [ih.2.2]⟩

/-- C4: the collator returns the `None` sentinel exactly when every record
of the minibatch (vacuously including the empty minibatch) is excluded by
the filter: spectrogram absent, or spectrogram time-length below the
resolved crop length. -/
theorem collate_none_iff_all_filtered (p : Params) (cma : Option Nat)
    (mb : List Record) :
    (collate p cma mb = none ↔
      ∀ r ∈ mb, keepRecord (effectiveCropMel cma p) r = false)
    ∧ (∀ r : Record, keepRecord (effectiveCropMel cma p) r = false ↔
        (r.spectrogram = none ∨ ∃ s, r.spectrogram = some s ∧
          s.length < effectiveCropMel cma p)) := by
  refine ⟨?_, ?_⟩
  case refine_2 =>
    intro r
    unfold keepRecord
    cases hs : r.spectrogram with
    | none => simp
    | some s => simp
  simp only [collate]
  split
  · rename_i h
    simp only [List.all_eq_true] at h
    constructor
    · intro _ r hr
      have hh := h _ (List.mem_map_of_mem (processRecord (effectiveCropMel cma p)) hr)
      rw [processRecord_isEmptyRec] at hh
      simpa using hh
    · intro _
      rfl
  · rename_i h
    constructor
    · intro hc
      exact absurd hc (by simp)
    · intro hall
      exfalso
      apply h
      simp only [List.all_eq_true]
      intro x hx
      obtain ⟨r, hr, rfl⟩ := List.mem_map.mp hx
      rw [processRecord_isEmptyRec]
      simp [hall r hr]

/-- C5: when the collator does produce a batch, the three stacked fields
share one leading batch dimension, the number of records surviving the
filter; an excluded record contributes to none of the three fields (its
whole dict is emptied). -/
theorem collate_batch_dims_eq (p : Params) (cma : Option Nat)
    (mb : List Record) (b : Batch)
    (h : collate p cma mb = some b) :
    b.audio.length = (mb.filter (keepRecord (effectiveCropMel cma p))).length
    ∧ b.spectrogram.length = (mb.filter (keepRecord (effectiveCropMel cma p))).length
    ∧ b.audio_cond_inst.length = (mb.filter (keepRecord (effectiveCropMel cma p))).length
    ∧ ∀ r ∈ mb, keepRecord (effectiveCropMel cma p) r = false →
        processRecord (effectiveCropMel cma p) r = ⟨none, none, none⟩ := by
  simp only [collate] at h
  split at h
  · exact absurd h (by simp)
  · rw [Option.some_inj] at h
    subst h
    obtain ⟨h1, h2, h3⟩ := filterMap_processRecord (effectiveCropMel cma p) mb
    refine ⟨?_, ?_, ?_, fun r _ hr => processRecord_dropped _ r hr⟩
    · simp [h1]
    · simp [h2]
    · simp [h3]

/-- A record with 4 absent-spectrogram variants and one surviving record,
used by the collator witnesses: absent spectrogram. -/
def rAbsent : Record := { audio := [0, 0], spectrogram := none, audio_cond_inst := [0, 0] }

/-- A surviving record: present spectrogram of time-length 2 (one mel bin),
matching `pTest.crop_mel_frames = 2`. -/
def rGood : Record := { audio := [0, 0], spectrogram := some [[1], [2]], audio_cond_inst := [0, 0] }

/-- Witness for `collate_batch_dims_eq`: a batch of 4 records of which 3
have absent spectrograms collates to leading dimension 1 on the audio
field. -/
theorem collate_batch_dims_eq_witness :
    (Batch.mk [[0, 0]] [[[1, 2]]] [[0, 0]]).audio.length =
      ([rAbsent, rAbsent, rAbsent, rGood].filter
        (keepRecord (effectiveCropMel none pTest))).length :=
  (collate_batch_dims_eq pTest none [rAbsent, rAbsent, rAbsent, rGood]
    (Batch.mk [[0, 0]] [[[1, 2]]] [[0, 0]]) (by decide)).1

/-- A record whose spectrogram has time-length 3, strictly above
`pTest.crop_mel_frames = 2`. -/
def rLong : Record :=
  { audio := [0, 0], spectrogram := some [[1], [2], [3]], audio_cond_inst := [0, 0] }

/-- C8 counterexample: the collator's filter drops a record only when its
spectrogram time-length is LESS than the crop length, so a record whose
spectrogram time-length (3) strictly exceeds the resolved crop length (2)
is admitted and stacked into the produced batch, contradicting the claim
that only time-length exactly equal to the crop length is ever admitted. -/
theorem collate_admits_longer_cex :
    effectiveCropMel none pTest = 2
    ∧ rLong.spectrogram = some [[1], [2], [3]]
    ∧ ([[1], [2], [3]] : List (List ℚ)).length = 3
    ∧ keepRecord (effectiveCropMel none pTest) rLong = true
    ∧ collate pTest none [rLong] =
        some (Batch.mk [[0, 0]] [[[1, 2, 3]]] [[0, 0]])
    ∧ ¬(3 = 2) := by decide

/-- C8 (amended): when the collator produces a batch, the stacked
spectrograms are exactly the transposes of the surviving records'
spectrograms, the filter admits a record exactly when its spectrogram is
present with time-length at least (not necessarily equal to) the resolved
crop length, and hence every stacked spectrogram's pre-stack time-length is
at least the crop length. -/
theorem collate_filter_admits_ge (p : Params) (cma : Option Nat)
    (mb : List Record) (b : Batch)
    (h : collate p cma mb = some b) :
    (∀ r : Record, keepRecord (effectiveCropMel cma p) r = true ↔
        ∃ s, r.spectrogram = some s ∧ effectiveCropMel cma p ≤ s.length)
    ∧ b.spectrogram =
        (mb.filter (keepRecord (effectiveCropMel cma p))).map
          (fun r => matT (r.spectrogram.getD []))
    ∧ ∀ r ∈ mb, keepRecord (effectiveCropMel cma p) r = true →
        effectiveCropMel cma p ≤ (r.spectrogram.getD []).length := by
  have hiff : ∀ r : Record, keepRecord (effectiveCropMel cma p) r = true ↔
      ∃ s, r.spectrogram = some s ∧ effectiveCropMel cma p ≤ s.length := by
    intro r
    constructor
    · intro hk
      obtain ⟨s, hs, hge, _⟩ := processRecord_kept _ r hk
      exact ⟨s, hs, hge⟩
    · intro ⟨s, hs, hge⟩
      unfold keepRecord
      rw [hs]
      simp
      omega
  simp only [collate] at h
  split at h
  · exact absurd h (by simp)
  · rw [Option.some_inj] at h
    subst h
    refine ⟨hiff, ?_, ?_⟩
    · exact (filterMap_processRecord (effectiveCropMel cma p) mb).2.1
    · intro r _ hk
      obtain ⟨s, hs, hge⟩ := (hiff r).mp hk
      rw [hs]
      simpa using hge

/-- Witness for `collate_filter_admits_ge` on the single-record minibatch
`[rGood]` (time-length 2, crop length 2). -/
theorem collate_filter_admits_ge_witness :
    (Batch.mk [[0, 0]] [[[1, 2]]] [[0, 0]]).spectrogram =
      ([rGood].filter (keepRecord (effectiveCropMel none pTest))).map
        (fun r => matT (r.spectrogram.getD [])) :=
  (collate_filter_admits_ge pTest none [rGood]
    (Batch.mk [[0, 0]] [[[1, 2]]] [[0, 0]]) (by decide)).2.1

/-! ### Failure containment and output shapes of the transform -/

/-- C6: on an input passing the sample-rate and shape validations, a
failing spectrogram extractor is absorbed: the transform still returns a
record, its `spectrogram` field is `none`, and both padded waveform fields
are produced as usual. -/
theorem spec_failure_absorbed
    (gspec : List ℚ → Params → Except String (List (List (List ℚ))))
    (p : Params) (cma : Option Nat) (start : Nat)
    (signal1 signal2 : List (List ℚ))
    (hshape : shape2 signal1 = shape2 signal2)
    (hmono : (shape2 signal1).1 = 1)
    (e : String)
    (hfail : gspec (croppedPair p cma start signal1 signal2).1 p = Except.error e) :
    getItem gspec p cma start signal1 p.sample_rate signal2 p.sample_rate =
      Except.ok
        { audio := (croppedPair p cma start signal1 signal2).2 ++
            List.replicate p.hop_samples 0
          spectrogram := none
          audio_cond_inst := (croppedPair p cma start signal1 signal2).1 ++
            List.replicate p.hop_samples 0 } := by
  unfold getItem
  rw [if_neg (by simp), if_neg (by simp [hshape]),
    if_neg (not_not_intro ⟨hmono, by rw [← hshape]; exact hmono⟩)]
  simp only [hfail]

/-- Witness for `spec_failure_absorbed`: a concrete always-failing
extractor on a concrete valid mono pair. -/
theorem spec_failure_absorbed_witness :
    getItem (fun _ _ => Except.error "boom") pTest none 0
        [[1, 2, 3, 4]] pTest.sample_rate [[5, 6, 7, 8]] pTest.sample_rate =
      Except.ok
        { audio := (croppedPair pTest none 0 [[1, 2, 3, 4]] [[5, 6, 7, 8]]).2 ++
            List.replicate pTest.hop_samples 0
          spectrogram := none
          audio_cond_inst := (croppedPair pTest none 0 [[1, 2, 3, 4]] [[5, 6, 7, 8]]).1 ++
            List.replicate pTest.hop_samples 0 } :=
  spec_failure_absorbed (fun _ _ => Except.error "boom") pTest none 0
    [[1, 2, 3, 4]] [[5, 6, 7, 8]] (by decide) (by decide) "boom" rfl

/-- C7: for the transform run with the (spec-modelled) `get_spec`
extractor, whenever the returned record carries a spectrogram, that
spectrogram's time-major leading dimension is at least 1, and both padded
waveforms have length equal to the pre-padding (possibly cropped) waveform
length plus `hop_samples`. -/
theorem padded_lengths_and_frames (p : Params) (cma : Option Nat) (start : Nat)
    (signal1 signal2 : List (List ℚ)) (sr1 sr2 : Nat)
    (r : Record) (sp : List (List ℚ))
    (hmels : 0 < p.n_mels)
    (hok : getItem get_spec p cma start signal1 sr1 signal2 sr2 = Except.ok r)
    (hsp : r.spectrogram = some sp) :
    1 ≤ sp.length
    ∧ r.audio.length =
        (croppedPair p cma start signal1 signal2).2.length + p.hop_samples
    ∧ r.audio_cond_inst.length =
        (croppedPair p cma start signal1 signal2).1.length + p.hop_samples := by
  unfold getItem at hok
  split at hok
  · exact absurd hok (by simp)
  split at hok
  · exact absurd hok (by simp)
  split at hok
  · exact absurd hok (by simp)
  simp only [Except.ok.injEq] at hok
  subst hok
  simp only at hsp
  refine ⟨?_, by simp, by simp⟩
  unfold get_spec at hsp
  split at hsp
  · rename_i t heq
    split at heq
    · exact absurd heq (by simp)
    · simp only [Except.ok.injEq] at heq
      subst heq
      rw [Option.some_inj] at hsp
      rw [← hsp]
      simp only [squeeze0, List.headD_cons, matT, List.length_map, List.length_range]
      obtain ⟨k, hk⟩ := Nat.exists_eq_succ_of_ne_zero (Nat.pos_iff_ne_zero.mp hmels)
      rw [hk]
      simp only [List.replicate_succ, List.headD_cons, List.length_replicate]
      exact Nat.le_add_left 1 _
  · simp at hsp

/-- A concrete Transformed Example produced by `getItem` with the modelled
`get_spec` on the all-ones length-4 pair under `pTest`. -/
def rT : Record :=
  { audio := [19/20, 19/20, 0, 0]
    spectrogram := some [[0, 0, 0], [0, 0, 0]]
    audio_cond_inst := [19/20, 19/20, 0, 0] }

/-- Witness for `padded_lengths_and_frames` on a concrete valid pair. -/
theorem padded_lengths_and_frames_witness :
    1 ≤ ([[0, 0, 0], [0, 0, 0]] : List (List ℚ)).length
    ∧ ([19/20, 19/20, 0, 0] : List ℚ).length =
        (croppedPair pTest none 0 [[1, 1, 1, 1]] [[1, 1, 1, 1]]).2.length +
          pTest.hop_samples := by
  have h := padded_lengths_and_frames pTest none 0 [[1, 1, 1, 1]] [[1, 1, 1, 1]]
    16000 16000 rT [[0, 0, 0], [0, 0, 0]] (by decide)
    (by with_unfolding_all rfl) (by decide)
  exact ⟨h.1, h.2.1⟩

/-! ### Mode-(b) index construction -/

/-- C9: with a nonempty explicit list-files argument, index construction
fails on the length assertion (producing no Training Examples) exactly when
the list-files count differs from the directories count; with equal counts
it zips directories and list files positionally and skips empty lines. -/
theorem mode_b_length_check (p : Params) (scanned : List String)
    (paths : List String) (files : List (List String))
    (hne : files ≠ []) :
    (files.length ≠ paths.length →
      datasetFilenames p scanned paths files =
        Except.error "assert len(files) == len(paths)")
    ∧ (files.length = paths.length →
      datasetFilenames p scanned paths files =
        Except.ok ((paths.zip files).flatMap (fun pf =>
          (pf.2.filter (fun x => x.length > 0)).flatMap
            (linePaths (pairIndices p.train_mixtures) pf.1)))) := by
  have hempty : files.isEmpty = false := by
    cases files with
    | nil => exact absurd rfl hne
    | cons a l => rfl
  constructor
  · intro hlen
    simp only [datasetFilenames, hempty, Bool.false_eq_true, if_false, if_pos hlen]
  · intro hlen
    have hlen' : ¬files.length ≠ paths.length := by omega
    simp only [datasetFilenames, hempty, Bool.false_eq_true, if_false, if_neg hlen']

/-- Witness for `mode_b_length_check`: two directories paired with a single
list file trip the assertion (spec scenario 5). -/
theorem mode_b_length_check_witness :
    datasetFilenames pTest [] ["d1", "d2"] [["a"]] =
      Except.error "assert len(files) == len(paths)" :=
  (mode_b_length_check pTest [] ["d1", "d2"] [["a"]] (by decide)).1 (by decide)

end WaveTransfer
